import Mathlib

/-!
# Shallow embedding of the `espnet_analyzer` package

This file embeds the pure computational core of the repository
(`src/espnet_analyzer/parser.py`, `analysis.py`, `models.py`) into Lean 4
and proves properties of the embedded functions.

Modelling conventions:
* Python `float` values are modelled by `ℚ` (all arithmetic in the claims is
  exact on the inputs considered); Python `None` is modelled by `Option.none`.
* A Python function that can raise an exception is modelled with an `Option`
  result whose `none` means "an exception escaped".
* `np.mean` of an empty list produces NaN; since `ℚ` has no NaN, the mean is
  modelled as `Option ℚ` with `none` standing for that NaN.
* Strings are modelled as `List Char`; `re.search` of the concrete regular
  expressions appearing in `parser.py` is modelled by specialised scanners,
  documented at each definition.  The `\d`, `\s`, `\w` character classes are
  modelled by their ASCII parts (the log lines the program consumes are ASCII).
-/

/-- ASCII model of the regex class `\d`. -/
def isDigitC (c : Char) : Bool := '0' ≤ c && c ≤ '9'

/-- ASCII model of the regex class `\s` (space, tab, newline, CR, VT, FF). -/
def isSpaceC (c : Char) : Bool :=
  c = ' ' || c = '\t' || c = '\n' || c = '\r' || c = '\x0b' || c = '\x0c'

/-- ASCII model of the regex class `\w`. -/
def isWordC (c : Char) : Bool :=
  isDigitC c || ('a' ≤ c && c ≤ 'z') || ('A' ≤ c && c ≤ 'Z') || c = '_'

/-- The regex class `[\d.]` used by the seconds component of
`parse_time_string`. -/
def isDigDotC (c : Char) : Bool := isDigitC c || c = '.'

/-- The regex class `[\d\w\s.]` used by the `time=` pattern of
`parse_log_file`. -/
def isTimeC (c : Char) : Bool := isDigitC c || isWordC c || isSpaceC c || c = '.'

/-- The regex class `[\d.e+-]` used by `extract_metric`. -/
def isMetC (c : Char) : Bool :=
  isDigitC c || c = '.' || c = 'e' || c = '+' || c = '-'

/-- Everything except a dot (used to split a numeric capture at its dot). -/
def notDotC (c : Char) : Bool := c ≠ '.'

/-- Does `pat` occur at the head of `s`?  (literal match, no classes). -/
def startsWithL : List Char → List Char → Bool
  | [], _ => true
  | _ :: _, [] => false
  | p :: ps, c :: cs => p = c && startsWithL ps cs

/-- Index of the first occurrence of the literal `pat` in `s`
(Python `str.index`; `findSub pat s = none` models `pat not in s`). -/
def findSub (pat : List Char) : List Char → Option ℕ
  | [] => if startsWithL pat [] then some 0 else none
  | c :: cs =>
    if startsWithL pat (c :: cs) then some 0
    else (findSub pat cs).map (· + 1)

/-- Value of a string of decimal digits (Python `int` on a `\d+` capture). -/
def natOfDigits (l : List Char) : ℕ :=
  l.foldl (fun n c => 10 * n + (c.toNat - 48)) 0

/-- The part of a numeric capture before its first dot. -/
def dotSplitInt (l : List Char) : List Char := l.takeWhile notDotC

/-- The part of a numeric capture after its first dot. -/
def dotSplitFrac (l : List Char) : List Char := (l.dropWhile notDotC).drop 1

/-- Python `float` applied to a capture of the class `[\d.]+` (the seconds
component of `parse_time_string`): it succeeds exactly when the capture has at
most one dot and at least one digit, and raises `ValueError` (modelled by
`none`) otherwise, e.g. on `"."`. -/
def pyFloatDD (l : List Char) : Option ℚ :=
  if l.count '.' ≤ 1 ∧ l.any isDigitC then
    some ((natOfDigits (dotSplitInt l) : ℚ) +
      (natOfDigits (dotSplitFrac l) : ℚ) / 10 ^ (dotSplitFrac l).length)
  else none

/-- Exponent suffix of a float literal: empty means a factor `1`, otherwise
`e[+-]?digits` as a power of ten; anything else is malformed (`none`). -/
def expPart (l : List Char) : Option ℚ :=
  match l with
  | [] => some 1
  | c :: r =>
    if c = 'e' then
      let sr : Bool × List Char :=
        match r with
        | '+' :: rr => (true, rr)
        | '-' :: rr => (false, rr)
        | rr => (true, rr)
      let ds := sr.2.takeWhile isDigitC
      if ds.isEmpty ∨ ¬ (sr.2.dropWhile isDigitC).isEmpty then none
      else some (if sr.1 then (10 : ℚ) ^ natOfDigits ds
                 else ((10 : ℚ) ^ natOfDigits ds)⁻¹)
    else none

/-- Python `float` applied to a capture of the class `[\d.e+-]+` (the value of
a `key=value` fragment in `extract_metric`): grammar
`[+-]? (digits [. digits?] | . digits) (e [+-]? digits)?`; `none` models the
`ValueError` that `extract_metric` catches. -/
def pyFloatMet (l : List Char) : Option ℚ :=
  let sl : ℚ × List Char :=
    match l with
    | '+' :: r => (1, r)
    | '-' :: r => (-1, r)
    | r => (1, r)
  let ip := sl.2.takeWhile isDigitC
  let l2 := sl.2.dropWhile isDigitC
  match l2 with
  | '.' :: r =>
    let fp := r.takeWhile isDigitC
    let l3 := r.dropWhile isDigitC
    if ip.isEmpty ∧ fp.isEmpty then none
    else (expPart l3).map fun e =>
      sl.1 * ((natOfDigits ip : ℚ) + (natOfDigits fp : ℚ) / 10 ^ fp.length) * e
  | _ =>
    if ip.isEmpty then none
    else (expPart l2).map fun e => sl.1 * (natOfDigits ip : ℚ) * e

/-- One attempted match of a pattern `(cls+) skip* unit…` at the current
position: the capture is the maximal `cls` run.  This is exactly Python's
backtracking search at one position for the patterns of `parser.py`
(`(\d+)\s*weeks?`, `(\d+)epoch results:`, …): shrinking the greedy `cls` run
leaves a `cls` character in front of the `skip*`/literal part, and every
literal starts with a letter that is in neither class, so no backtracking into
the run or the skip run can ever succeed. -/
def matchNumUnit (cls skip : Char → Bool) (unit : List Char) (s : List Char) :
    Option (List Char) :=
  let run := s.takeWhile cls
  if run.isEmpty then none
  else if startsWithL unit ((s.dropWhile cls).dropWhile skip) then some run
  else none

/-- Leftmost match of `(cls+) skip* unit…` (Python `re.search`): positions are
tried left to right. -/
def searchNumUnit (cls skip : Char → Bool) (unit : List Char) :
    List Char → Option (List Char)
  | [] => none
  | c :: cs =>
    match matchNumUnit cls skip unit (c :: cs) with
    | some cap => some cap
    | none => searchNumUnit cls skip unit cs

def weekU : List Char := "week".data
def dayU : List Char := "day".data
def hourU : List Char := "hour".data
def minuteU : List Char := "minute".data
def secondU : List Char := "second".data

/-- Contribution of the weeks component of `parse_time_string`
(`re.search(r'(\d+)\s*weeks?', time_str)`; the optional final `s` never
affects whether a match exists nor the capture). -/
def weeksContrib (cs : List Char) : ℚ :=
  match searchNumUnit isDigitC isSpaceC weekU cs with
  | some cap => (natOfDigits cap : ℚ) * 7 * 24 * 3600
  | none => 0

/-- Contribution of the days component of `parse_time_string`. -/
def daysContrib (cs : List Char) : ℚ :=
  match searchNumUnit isDigitC isSpaceC dayU cs with
  | some cap => (natOfDigits cap : ℚ) * 24 * 3600
  | none => 0

/-- Contribution of the hours component of `parse_time_string`. -/
def hoursContrib (cs : List Char) : ℚ :=
  match searchNumUnit isDigitC isSpaceC hourU cs with
  | some cap => (natOfDigits cap : ℚ) * 3600
  | none => 0

/-- Contribution of the minutes component of `parse_time_string`. -/
def minutesContrib (cs : List Char) : ℚ :=
  match searchNumUnit isDigitC isSpaceC minuteU cs with
  | some cap => (natOfDigits cap : ℚ) * 60
  | none => 0

/-- Contribution of the seconds component of `parse_time_string`
(`re.search(r'([\d.]+)\s*seconds?', time_str)` followed by `float`); `none`
models the `ValueError` escaping from `float` on a malformed capture. -/
def secondsContrib (cs : List Char) : Option ℚ :=
  match searchNumUnit isDigDotC isSpaceC secondU cs with
  | none => some 0
  | some cap => pyFloatDD cap

/-- `parser.parse_time_string` on a character list.  The five component
regexes are searched independently over the whole string and their
second-equivalents are summed; only the seconds component can raise. -/
def parse_time_chars (cs : List Char) : Option ℚ :=
  match secondsContrib cs with
  | none => none
  | some x =>
      some (weeksContrib cs + daysContrib cs + hoursContrib cs +
        minutesContrib cs + x)

/-- `parser.parse_time_string`. -/
def parse_time_string (s : String) : Option ℚ := parse_time_chars s.data

/-- `models.EpochMetrics`: one record per epoch, all metrics optional. -/
structure EpochMetrics where
  epoch : ℤ
  train_generator_loss : Option ℚ := none
  train_mel_loss : Option ℚ := none
  train_kl_loss : Option ℚ := none
  train_dur_loss : Option ℚ := none
  train_adv_loss : Option ℚ := none
  train_feat_match_loss : Option ℚ := none
  train_discriminator_loss : Option ℚ := none
  valid_generator_loss : Option ℚ := none
  valid_mel_loss : Option ℚ := none
  valid_kl_loss : Option ℚ := none
  valid_dur_loss : Option ℚ := none
  valid_adv_loss : Option ℚ := none
  valid_feat_match_loss : Option ℚ := none
  valid_discriminator_loss : Option ℚ := none
  train_time_seconds : Option ℚ := none
deriving DecidableEq

/-- The attribute names that `analysis.py` reads off an `EpochMetrics` record
with `getattr` (the fifteen `Optional[float]` fields). -/
inductive MetricName
  | train_generator_loss | train_mel_loss | train_kl_loss | train_dur_loss
  | train_adv_loss | train_feat_match_loss | train_discriminator_loss
  | valid_generator_loss | valid_mel_loss | valid_kl_loss | valid_dur_loss
  | valid_adv_loss | valid_feat_match_loss | valid_discriminator_loss
  | train_time_seconds
deriving DecidableEq

/-- `getattr(record, metric)` for the metric attributes. -/
def getMetric (m : MetricName) (e : EpochMetrics) : Option ℚ :=
  match m with
  | .train_generator_loss => e.train_generator_loss
  | .train_mel_loss => e.train_mel_loss
  | .train_kl_loss => e.train_kl_loss
  | .train_dur_loss => e.train_dur_loss
  | .train_adv_loss => e.train_adv_loss
  | .train_feat_match_loss => e.train_feat_match_loss
  | .train_discriminator_loss => e.train_discriminator_loss
  | .valid_generator_loss => e.valid_generator_loss
  | .valid_mel_loss => e.valid_mel_loss
  | .valid_kl_loss => e.valid_kl_loss
  | .valid_dur_loss => e.valid_dur_loss
  | .valid_adv_loss => e.valid_adv_loss
  | .valid_feat_match_loss => e.valid_feat_match_loss
  | .valid_discriminator_loss => e.valid_discriminator_loss
  | .train_time_seconds => e.train_time_seconds

/-- Leftmost match of `name=([\d.e+-]+)` at one position (`extract_metric`'s
pattern; `pat` is `name=`): the capture is the maximal class run after the
literal, and the position only matches when that run is non-empty. -/
def matchMetricAt (pat : List Char) (s : List Char) : Option (List Char) :=
  if startsWithL pat s then
    let run := (s.drop pat.length).takeWhile isMetC
    if run.isEmpty then none else some run
  else none

/-- Leftmost match of `name=([\d.e+-]+)` (Python `re.search`). -/
def searchMetric (pat : List Char) : List Char → Option (List Char)
  | [] => none
  | c :: cs =>
    match matchMetricAt pat (c :: cs) with
    | some cap => some cap
    | none => searchMetric pat cs

/-- `parser.extract_metric`: search `{metric_name}=([\d.e+-]+)`, convert the
capture with `float`, return `None` both on no match and on `ValueError`. -/
def extract_metric (text : List Char) (name : List Char) : Option ℚ :=
  match searchMetric (name ++ ['=']) text with
  | none => none
  | some cap => pyFloatMet cap

def trainTag : List Char := "[train]".data
def validTag : List Char := "[valid]".data
def epochU : List Char := "epoch results:".data
def timeEqL : List Char := "time=".data

/-- No skipping between the digits and the literal (the epoch pattern
`(\d+)epoch results:` has no `\s*`). -/
def noSkip (_ : Char) : Bool := false

/-- Search for the epoch header `(\d+)epoch results:` in a line. -/
def epochSearch (line : List Char) : Option (List Char) :=
  searchNumUnit isDigitC noSkip epochU line

/-- The `[train]`/`[valid]` section split of `parse_log_file`: the training
section runs from the first `[train]` to the first following `[valid]` (or to
the end), the validation section from that `[valid]` on; a line without
`[train]` leaves both sections empty. -/
def sections (line : List Char) : List Char × List Char :=
  match findSub trainTag line with
  | none => ([], [])
  | some i =>
    let t := line.drop i
    match findSub validTag t with
    | none => (t, [])
    | some j => (t.take j, t.drop j)

/-- Can `(?:,|$)` match at this point?  (`$` also matches just before a final
newline). -/
def timeFollow : List Char → Bool
  | [] => true
  | [c] => c = ',' || c = '\n'
  | c :: _ :: _ => c = ','

/-- The lazy capture `([\d\w\s.]+?)(?:,|$)` starting at `c :: rest`: the
shortest non-empty class run after which `(?:,|$)` matches. -/
def lazyGo (c : Char) (rest : List Char) : Option (List Char) :=
  if isTimeC c then
    if timeFollow rest then some [c]
    else
      match rest with
      | [] => none
      | c2 :: rest2 => (lazyGo c2 rest2).map (fun cap => c :: cap)
  else none

/-- Leftmost match of `time=([\d\w\s.]+?)(?:,|$)` (the timing pattern of
`parse_log_file`). -/
def timeSearch : List Char → Option (List Char)
  | [] => none
  | c :: cs =>
    if startsWithL timeEqL (c :: cs) then
      match (c :: cs).drop timeEqL.length with
      | [] => timeSearch cs
      | c2 :: rest =>
        match lazyGo c2 rest with
        | some cap => some cap
        | none => timeSearch cs
    else timeSearch cs

def genLossN : List Char := "generator_loss".data
def melLossN : List Char := "generator_mel_loss".data
def klLossN : List Char := "generator_kl_loss".data
def durLossN : List Char := "generator_dur_loss".data
def advLossN : List Char := "generator_adv_loss".data
def featLossN : List Char := "generator_feat_match_loss".data
def discLossN : List Char := "discriminator_loss".data

/-- The per-line body of `parse_log_file`'s loop.  `some none` means the line
is skipped (no epoch header), `some (some m)` means the record `m` is
appended, and `none` means a `ValueError` escaped from `parse_time_string` on
a malformed `time=` capture in the training section. -/
def parseLine (line : List Char) : Option (Option EpochMetrics) :=
  match epochSearch line with
  | none => some none
  | some cap =>
    let ts := (sections line).1
    let vs := (sections line).2
    let base : EpochMetrics := {
      epoch := (natOfDigits cap : ℤ)
      train_generator_loss := extract_metric ts genLossN
      train_mel_loss := extract_metric ts melLossN
      train_kl_loss := extract_metric ts klLossN
      train_dur_loss := extract_metric ts durLossN
      train_adv_loss := extract_metric ts advLossN
      train_feat_match_loss := extract_metric ts featLossN
      train_discriminator_loss := extract_metric ts discLossN
      valid_generator_loss := extract_metric vs genLossN
      valid_mel_loss := extract_metric vs melLossN
      valid_kl_loss := extract_metric vs klLossN
      valid_dur_loss := extract_metric vs durLossN
      valid_adv_loss := extract_metric vs advLossN
      valid_feat_match_loss := extract_metric vs featLossN
      valid_discriminator_loss := extract_metric vs discLossN
      train_time_seconds := none }
    match timeSearch ts with
    | none => some (some base)
    | some tcap =>
      match parse_time_chars tcap with
      | none => none
      | some q => some (some { base with train_time_seconds := some q })

/-- Collect the records of the lines in order (the loop of
`parse_log_file`). -/
def plfGo : List String → Option (List EpochMetrics)
  | [] => some []
  | l :: rest =>
    match parseLine l.data with
    | none => none
    | some none => plfGo rest
    | some (some m) => (plfGo rest).map (fun ms => m :: ms)

/-- Stable insertion of a record into a list sorted by epoch (after all
records with an equal or smaller epoch). -/
def insEpoch (x : EpochMetrics) : List EpochMetrics → List EpochMetrics
  | [] => [x]
  | y :: ys => if y.epoch ≤ x.epoch then y :: insEpoch x ys else x :: y :: ys

/-- Stable sort by epoch number (Python `sorted(..., key=lambda x: x.epoch)`,
which is stable). -/
def sortByEpoch (ms : List EpochMetrics) : List EpochMetrics :=
  ms.foldl (fun acc m => insEpoch m acc) []

/-- `parser.parse_log_file` on the list of lines of the file. -/
def parse_log_file (lines : List String) : Option (List EpochMetrics) :=
  (plfGo lines).map sortByEpoch

/-- `models.PlateauInfo`.  `start_epoch` is an `Option` because the code can
store Python `None` in it (when `consecutive_epochs ≤ 0` a plateau can be
emitted with no run open, although the dataclass declares the field `int`);
`avg_improvement` is an `Option` whose `none` models the NaN of `np.mean([])`
in the same degenerate situation. -/
structure PlateauInfo where
  start_epoch : Option ℤ
  end_epoch : ℤ
  avg_improvement : Option ℚ
  epochs_in_plateau : ℕ
deriving DecidableEq

/-- `float(np.mean(l))`: `none` models the NaN produced on an empty list. -/
def npMean (l : List ℚ) : Option ℚ :=
  if l = [] then none else some (l.sum / l.length)

/-- `models.AnalysisResult` (the `recent_improvement_rate` field is an
`Option` only because `np.mean` is; on the reachable paths it is `some`). -/
structure AnalysisResult where
  epochs : List EpochMetrics
  plateaus : List PlateauInfo
  suggested_stop_epoch : Option ℤ
  total_improvement : ℚ
  recent_improvement_rate : Option ℚ

/-- `analysis.compute_improvements`: for each consecutive pair of records with
both metric values present, emit `(epoch_i, prev - curr)`. -/
def ciGo (m : MetricName) : EpochMetrics → List EpochMetrics → List (ℤ × ℚ)
  | _, [] => []
  | prev, curr :: rest =>
    (match getMetric m prev, getMetric m curr with
     | some p, some c => [(curr.epoch, p - c)]
     | _, _ => []) ++ ciGo m curr rest

def compute_improvements (epochs : List EpochMetrics) (metric : MetricName) :
    List (ℤ × ℚ) :=
  match epochs with
  | [] => []
  | e :: rest => ciGo metric e rest

/-- `analysis.compute_relative_improvements`: additionally requires
`prev != 0` and emits `(epoch_i, (prev - curr) / prev * 100)`. -/
def criGo (m : MetricName) : EpochMetrics → List EpochMetrics → List (ℤ × ℚ)
  | _, [] => []
  | prev, curr :: rest =>
    (match getMetric m prev, getMetric m curr with
     | some p, some c =>
        if p ≠ 0 then [(curr.epoch, (p - c) / p * 100)] else []
     | _, _ => []) ++ criGo m curr rest

def compute_relative_improvements (epochs : List EpochMetrics)
    (metric : MetricName) : List (ℤ × ℚ) :=
  match epochs with
  | [] => []
  | e :: rest => criGo metric e rest

/-- The loop state of `detect_plateaus`: emitted plateaus,
`current_plateau_start`, `consecutive_count`, `plateau_improvements`. -/
structure DPState where
  plateaus : List PlateauInfo
  start : Option ℤ
  count : ℕ
  buf : List ℚ
deriving DecidableEq

def dpInit : DPState := ⟨[], none, 0, []⟩

/-- One iteration of the loop of `analysis.detect_plateaus`. -/
def dpStep (threshold : ℚ) (consecutive_epochs : ℤ) (st : DPState)
    (p : ℤ × ℚ) : DPState :=
  if p.2 < threshold then
    match st.start with
    | none => ⟨st.plateaus, some p.1, st.count + 1, [p.2]⟩
    | some s => ⟨st.plateaus, some s, st.count + 1, st.buf ++ [p.2]⟩
  else
    if consecutive_epochs ≤ (st.count : ℤ) then
      ⟨st.plateaus ++ [⟨st.start, p.1 - 1, npMean st.buf, st.count⟩],
        none, 0, []⟩
    else
      ⟨st.plateaus, none, 0, []⟩

/-- `analysis.detect_plateaus`.  The result is `none` when the final
`improvements[-1]` indexing raises `IndexError` (empty input while
`consecutive_count >= consecutive_epochs`, possible for
`consecutive_epochs ≤ 0`).  The source also accepts a `use_relative`
parameter that its body never reads; it is omitted here. -/
def detect_plateaus (improvements : List (ℤ × ℚ)) (threshold : ℚ := 0.01)
    (consecutive_epochs : ℤ := 10) : Option (List PlateauInfo) :=
  let st := improvements.foldl (dpStep threshold consecutive_epochs) dpInit
  if consecutive_epochs ≤ (st.count : ℤ) then
    match improvements.getLast? with
    | none => none
    | some p => some (st.plateaus ++ [⟨st.start, p.1, npMean st.buf, st.count⟩])
  else
    some st.plateaus

/-- The scan of `analysis.suggest_stop_epoch`; the outer `none` models the
`TypeError` of comparing a `None` `start_epoch` with an `int`. -/
def suggestGo (min_epochs : ℤ) : List PlateauInfo → Option (Option ℤ)
  | [] => some none
  | p :: rest =>
    match p.start_epoch with
    | none => none
    | some s => if min_epochs ≤ s then some (some s) else suggestGo min_epochs rest

/-- `analysis.suggest_stop_epoch` (the `epochs` and `improvements` parameters
are accepted and unused, as in the source). -/
def suggest_stop_epoch (_epochs : List EpochMetrics)
    (_improvements : List (ℤ × ℚ)) (plateaus : List PlateauInfo)
    (min_epochs : ℤ := 50) : Option (Option ℤ) :=
  match plateaus with
  | [] => some none
  | _ => suggestGo min_epochs plateaus

/-- `analysis.analyze_training`.  `none` models an exception escaping from
`detect_plateaus` or `suggest_stop_epoch` (impossible for the default
`consecutive_epochs = 10`).  The `if first_val and last_val` of the source is
Python truthiness: it takes the formula branch only when both endpoint values
are present AND non-zero. -/
def analyze_training (epochs : List EpochMetrics) (metric : MetricName)
    (threshold : ℚ := 0.1) (consecutive_epochs : ℤ := 10)
    (use_relative : Bool := true) : Option AnalysisResult :=
  let improvements :=
    if use_relative then compute_relative_improvements epochs metric
    else compute_improvements epochs metric
  match detect_plateaus improvements threshold consecutive_epochs with
  | none => none
  | some plateaus =>
    match suggest_stop_epoch epochs improvements plateaus 50 with
    | none => none
    | some suggested =>
      let total : ℚ :=
        match epochs with
        | [] => 0
        | e0 :: _ =>
          match epochs.getLast? with
          | none => 0
          | some elast =>
            match getMetric metric e0, getMetric metric elast with
            | some f, some l => if f ≠ 0 ∧ l ≠ 0 then (f - l) / f * 100 else 0
            | _, _ => 0
      let recent : Option ℚ :=
        if 20 ≤ improvements.length then
          npMean ((improvements.drop (improvements.length - 20)).map Prod.snd)
        else if improvements = [] then some 0
        else npMean (improvements.map Prod.snd)
      some ⟨epochs, plateaus, suggested, total, recent⟩

/-! ## General helper lemmas -/

lemma pyFloatDD_eval (l : List Char) (i f k : ℕ)
    (hc : l.count '.' ≤ 1 ∧ l.any isDigitC)
    (hi : natOfDigits (dotSplitInt l) = i) (hf : natOfDigits (dotSplitFrac l) = f)
    (hk : (dotSplitFrac l).length = k) :
    pyFloatDD l = some ((i : ℚ) + (f : ℚ) / 10 ^ k) := by
  rw [pyFloatDD, if_pos hc, hi, hf, hk]

lemma parse_time_chars_eq (cs : List Char) :
    parse_time_chars cs = (secondsContrib cs).map (fun x =>
      weeksContrib cs + daysContrib cs + hoursContrib cs +
        minutesContrib cs + x) := by
  cases h : secondsContrib cs <;> simp [parse_time_chars, h]

/-! ## Claim C2: `parse_duration` -/

/-- C2 counterexample: the claim says `parse_duration` never fails on any
input string, but on `". seconds"` the seconds regex captures `"."` and
Python `float(".")` raises `ValueError`, so `parse_time_string` fails
(modelled as `none`). -/
theorem claim_C2_counterexample : parse_time_string ". seconds" = none := by
  have hs : searchNumUnit isDigDotC isSpaceC secondU (". seconds".data) =
      some ['.'] := by decide
  have hp : pyFloatDD ['.'] = none := by
    rw [pyFloatDD, if_neg]; decide
  simp [parse_time_string, parse_time_chars, secondsContrib, hs, hp]

/-- C2 (amended): `parse_duration` sums the second-equivalents of the
present week/day/hour/minute/second components (absent components contribute
zero, no component at all yields 0.0, order does not matter), and it returns a
value for every input except when the seconds regex matches with a capture
that is not a well-formed decimal (at most one dot, at least one digit), in
which case `float` raises `ValueError`; the three concrete examples of the
claim hold, as does a reordered variant. -/
theorem claim_C2_parse_duration :
    (∀ s : String, parse_time_string s =
      (secondsContrib s.data).map (fun x =>
        weeksContrib s.data + daysContrib s.data + hoursContrib s.data +
          minutesContrib s.data + x)) ∧
    (∀ s : String, parse_time_string s = none ↔
      ∃ cap, searchNumUnit isDigDotC isSpaceC secondU s.data = some cap ∧
        pyFloatDD cap = none) ∧
    parse_time_string "" = some 0 ∧
    parse_time_string "5 seconds" = some 5 ∧
    parse_time_string "1 hour and 2 minutes and 3.5 seconds" = some 3723.5 ∧
    parse_time_string "3.5 seconds and 2 minutes and 1 hour" = some 3723.5 := by
  refine ⟨fun s => parse_time_chars_eq s.data, fun s => ?_, ?_, ?_, ?_, ?_⟩
  · unfold parse_time_string
    rw [parse_time_chars_eq]
    unfold secondsContrib
    cases hs : searchNumUnit isDigDotC isSpaceC secondU s.data with
    | none => simp [hs]
    | some cap =>
      cases hp : pyFloatDD cap with
      | none => simp [hp]
      | some q => simp [hp]
  · simp [parse_time_string, parse_time_chars, secondsContrib, weeksContrib,
      daysContrib, hoursContrib, minutesContrib, searchNumUnit]
  · have hw : searchNumUnit isDigitC isSpaceC weekU ("5 seconds".data) = none := by decide
    have hd : searchNumUnit isDigitC isSpaceC dayU ("5 seconds".data) = none := by decide
    have hh : searchNumUnit isDigitC isSpaceC hourU ("5 seconds".data) = none := by decide
    have hm : searchNumUnit isDigitC isSpaceC minuteU ("5 seconds".data) = none := by decide
    have hs : searchNumUnit isDigDotC isSpaceC secondU ("5 seconds".data) =
        some ['5'] := by decide
    have hp : pyFloatDD ['5'] = some ((5 : ℚ) + (0 : ℚ) / 10 ^ 0) :=
      pyFloatDD_eval _ 5 0 0 (by decide) (by decide) (by decide) (by decide)
    simp only [parse_time_string, parse_time_chars, secondsContrib, weeksContrib,
      daysContrib, hoursContrib, minutesContrib, hw, hd, hh, hm, hs, hp]
    norm_num
  · have hw : searchNumUnit isDigitC isSpaceC weekU
        ("1 hour and 2 minutes and 3.5 seconds".data) = none := by decide
    have hd : searchNumUnit isDigitC isSpaceC dayU
        ("1 hour and 2 minutes and 3.5 seconds".data) = none := by decide
    have hh : searchNumUnit isDigitC isSpaceC hourU
        ("1 hour and 2 minutes and 3.5 seconds".data) = some ['1'] := by decide
    have hm : searchNumUnit isDigitC isSpaceC minuteU
        ("1 hour and 2 minutes and 3.5 seconds".data) = some ['2'] := by decide
    have hs : searchNumUnit isDigDotC isSpaceC secondU
        ("1 hour and 2 minutes and 3.5 seconds".data) = some ['3', '.', '5'] := by decide
    have hp : pyFloatDD ['3', '.', '5'] = some ((3 : ℚ) + (5 : ℚ) / 10 ^ 1) :=
      pyFloatDD_eval _ 3 5 1 (by decide) (by decide) (by decide) (by decide)
    simp only [parse_time_string, parse_time_chars, secondsContrib, weeksContrib,
      daysContrib, hoursContrib, minutesContrib, hw, hd, hh, hm, hs, hp]
    norm_num [show natOfDigits ['1'] = 1 from by decide,
      show natOfDigits ['2'] = 2 from by decide]
  · have hw : searchNumUnit isDigitC isSpaceC weekU
        ("3.5 seconds and 2 minutes and 1 hour".data) = none := by decide
    have hd : searchNumUnit isDigitC isSpaceC dayU
        ("3.5 seconds and 2 minutes and 1 hour".data) = none := by decide
    have hh : searchNumUnit isDigitC isSpaceC hourU
        ("3.5 seconds and 2 minutes and 1 hour".data) = some ['1'] := by decide
    have hm : searchNumUnit isDigitC isSpaceC minuteU
        ("3.5 seconds and 2 minutes and 1 hour".data) = some ['2'] := by decide
    have hs : searchNumUnit isDigDotC isSpaceC secondU
        ("3.5 seconds and 2 minutes and 1 hour".data) = some ['3', '.', '5'] := by decide
    have hp : pyFloatDD ['3', '.', '5'] = some ((3 : ℚ) + (5 : ℚ) / 10 ^ 1) :=
      pyFloatDD_eval _ 3 5 1 (by decide) (by decide) (by decide) (by decide)
    simp only [parse_time_string, parse_time_chars, secondsContrib, weeksContrib,
      daysContrib, hoursContrib, minutesContrib, hw, hd, hh, hm, hs, hp]
    norm_num [show natOfDigits ['1'] = 1 from by decide,
      show natOfDigits ['2'] = 2 from by decide]

/-! ## Claim C3: `detect_plateaus` on an empty input -/

/-- C3 counterexample: with `consecutive_epochs = 0` (the claim quantifies
over every value), an empty delta sequence makes the trailing check true with
`consecutive_count = 0`, and `improvements[-1]` raises `IndexError`
(modelled as `none`), so the result is not an empty list. -/
theorem claim_C3_counterexample :
    detect_plateaus [] 1 0 = none ∧
    (none : Option (List PlateauInfo)) ≠ some [] := by
  constructor
  · rfl
  · simp

/-- C3 (amended): for every threshold and every positive
`consecutive_epochs`, `detect_plateaus` on an empty delta sequence returns an
empty plateau list without failing. -/
theorem claim_C3_empty (t : ℚ) (c : ℤ) (hc : 1 ≤ c) :
    detect_plateaus [] t c = some [] := by
  simp only [detect_plateaus, List.foldl_nil, dpInit]
  rw [if_neg (by omega)]

/-- C3 witness. -/
theorem claim_C3_empty_witness :
    (1 : ℤ) ≤ 10 ∧ detect_plateaus [] 1 10 = some [] :=
  ⟨by decide, claim_C3_empty 1 10 (by decide)⟩

/-! ## Claim C7: `suggest_stop_epoch` -/

lemma suggestGo_eq_find (m : ℤ) :
    ∀ pl : List PlateauInfo, (∀ p ∈ pl, p.start_epoch ≠ none) →
      suggestGo m pl =
        some ((pl.find? (fun p => p.start_epoch.any (fun s => decide (m ≤ s)))).bind
          PlateauInfo.start_epoch)
  | [], _ => by simp [suggestGo]
  | p :: rest, h => by
    obtain ⟨s, hs⟩ := Option.ne_none_iff_exists'.mp (h p (by simp))
    by_cases hm : m ≤ s
    · rw [List.find?_cons_of_pos _ (by simp [hs, hm])]
      simp [suggestGo, hs, hm]
    · rw [List.find?_cons_of_neg _ (by simp [hs, hm])]
      have ih := suggestGo_eq_find m rest (fun q hq => h q (by simp [hq]))
      simp [suggestGo, hs, hm, ih]

lemma suggest_stop_eq_find (eps : List EpochMetrics) (imps : List (ℤ × ℚ))
    (pl : List PlateauInfo) (m : ℤ) (h : ∀ p ∈ pl, p.start_epoch ≠ none) :
    suggest_stop_epoch eps imps pl m =
      some ((pl.find? (fun p => p.start_epoch.any (fun s => decide (m ≤ s)))).bind
        PlateauInfo.start_epoch) := by
  cases pl with
  | nil => simp [suggest_stop_epoch]
  | cons p rest => exact suggestGo_eq_find m (p :: rest) h

/-- C7: on any plateau list whose `start_epoch` fields are populated (as the
data model declares), `suggest_stop_epoch` returns the `start_epoch` of the
first plateau in list order with `start_epoch ≥ min_epochs` (and `None` when
the list is empty or no plateau qualifies) without failing; in particular,
with plateaus starting at 20 and 60 and `min_epochs = 50` it returns 60, and
on an empty list it returns `None`.  The source's default for `min_epochs`
is 50, mirrored in the definition. -/
theorem claim_C7_suggest_stop :
    (∀ (eps : List EpochMetrics) (imps : List (ℤ × ℚ))
       (pl : List PlateauInfo) (m : ℤ),
      (∀ p ∈ pl, p.start_epoch ≠ none) →
      suggest_stop_epoch eps imps pl m =
        some ((pl.find? (fun p => p.start_epoch.any (fun s => decide (m ≤ s)))).bind
          PlateauInfo.start_epoch)) ∧
    suggest_stop_epoch [] [] [⟨some 20, 30, none, 12⟩, ⟨some 60, 70, none, 12⟩] 50 =
      some (some 60) ∧
    (∀ (eps : List EpochMetrics) (imps : List (ℤ × ℚ)),
      suggest_stop_epoch eps imps [] 50 = some none) := by
  refine ⟨suggest_stop_eq_find, by decide, fun eps imps => rfl⟩

/-- C7 witness. -/
theorem claim_C7_suggest_stop_witness :
    (∀ p ∈ [(⟨some 20, 30, none, 12⟩ : PlateauInfo), ⟨some 60, 70, none, 12⟩],
      p.start_epoch ≠ none) ∧
    suggest_stop_epoch [] [] [⟨some 20, 30, none, 12⟩, ⟨some 60, 70, none, 12⟩] 50 =
      some (([(⟨some 20, 30, none, 12⟩ : PlateauInfo), ⟨some 60, 70, none, 12⟩].find?
        (fun p => p.start_epoch.any (fun s => decide ((50 : ℤ) ≤ s)))).bind
          PlateauInfo.start_epoch) :=
  ⟨by decide, claim_C7_suggest_stop.1 [] [] _ 50 (by decide)⟩

/-! ## Plateau detector: fold lemmas -/

lemma dpStep_below (t : ℚ) (c : ℤ) (st : DPState) (p : ℤ × ℚ) (h : p.2 < t) :
    dpStep t c st p =
      match st.start with
      | none => ⟨st.plateaus, some p.1, st.count + 1, [p.2]⟩
      | some s => ⟨st.plateaus, some s, st.count + 1, st.buf ++ [p.2]⟩ := by
  rw [dpStep, if_pos h]

lemma dpStep_not_below (t : ℚ) (c : ℤ) (st : DPState) (p : ℤ × ℚ)
    (h : ¬ p.2 < t) :
    dpStep t c st p =
      if c ≤ (st.count : ℤ) then
        ⟨st.plateaus ++ [⟨st.start, p.1 - 1, npMean st.buf, st.count⟩],
          none, 0, []⟩
      else ⟨st.plateaus, none, 0, []⟩ := by
  rw [dpStep, if_neg h]

/-- Folding a run of all-below deltas from an open state just extends the
run. -/
lemma dp_run_open (t : ℚ) (c : ℤ) :
    ∀ (L : List (ℤ × ℚ)) (acc : List PlateauInfo) (s : ℤ) (k : ℕ) (buf : List ℚ),
      (∀ p ∈ L, p.2 < t) →
      L.foldl (dpStep t c) ⟨acc, some s, k, buf⟩ =
        ⟨acc, some s, k + L.length, buf ++ L.map Prod.snd⟩
  | [], acc, s, k, buf, _ => by simp
  | p :: L, acc, s, k, buf, h => by
    have hp : p.2 < t := h p (by simp)
    have hrest : ∀ q ∈ L, q.2 < t := fun q hq => h q (by simp [hq])
    rw [List.foldl_cons, dpStep_below t c _ p hp]
    simp only
    rw [dp_run_open t c L acc s (k + 1) (buf ++ [p.2]) hrest]
    simp [DPState.mk.injEq, List.append_assoc]
    omega

/-- Folding a non-empty run of all-below deltas from a closed state opens the
run at the first epoch. -/
lemma dp_run_closed (t : ℚ) (c : ℤ) (p0 : ℤ × ℚ) (L : List (ℤ × ℚ))
    (acc : List PlateauInfo) (h : ∀ p ∈ p0 :: L, p.2 < t) :
    (p0 :: L).foldl (dpStep t c) ⟨acc, none, 0, []⟩ =
      ⟨acc, some p0.1, L.length + 1, p0.2 :: L.map Prod.snd⟩ := by
  have hp : p0.2 < t := h p0 (by simp)
  have hrest : ∀ q ∈ L, q.2 < t := fun q hq => h q (by simp [hq])
  rw [List.foldl_cons, dpStep_below t c _ p0 hp]
  simp only
  rw [dp_run_open t c L acc p0.1 1 [p0.2] hrest]
  simp [Nat.add_comm]

/-- After a list that is empty or ends with an at-or-above-threshold delta,
the run state is closed. -/
lemma dp_closed (t : ℚ) (c : ℤ) (P : List (ℤ × ℚ))
    (h : P = [] ∨ ∃ y, P.getLast? = some y ∧ ¬ y.2 < t) :
    P.foldl (dpStep t c) dpInit =
      ⟨(P.foldl (dpStep t c) dpInit).plateaus, none, 0, []⟩ := by
  rcases h with h | ⟨y, hy, hnb⟩
  · subst h; rfl
  · obtain ⟨P0, rfl⟩ : ∃ P0, P = P0 ++ [y] := by
      rcases List.mem_getLast?_eq_getLast (by simp [hy] : y ∈ P.getLast?) with ⟨hne, hlast⟩
      exact ⟨P.dropLast, by rw [hlast]; exact (List.dropLast_append_getLast hne).symm⟩
    rw [List.foldl_append]
    generalize P0.foldl (dpStep t c) dpInit = st
    rw [List.foldl_cons, List.foldl_nil, dpStep_not_below t c st y hnb]
    by_cases hc : c ≤ (st.count : ℤ) <;> simp [hc]

/-! ## Claim C4: run accumulation and closing -/

/-- C4: on a delta sequence with strictly increasing epochs consisting of a
below-threshold run (strict `<`; the closing delta satisfies the negation, in
particular a delta equal to the threshold closes the run) followed by one
at-or-above-threshold delta at epoch `e`, the detector emits exactly one
descriptor covering `[run_start, e-1]` with the arithmetic mean of the
accumulated deltas if and only if the run length reaches
`consecutive_epochs`, and emits nothing otherwise (the run state is reset
either way; with 12 below-threshold deltas and `consecutive_epochs = 10` this
yields exactly one descriptor with `run_length = 12`). -/
theorem claim_C4_run_close (t : ℚ) (c : ℤ) (p0 : ℤ × ℚ) (L : List (ℤ × ℚ))
    (e : ℤ) (d : ℚ) (hc : 1 ≤ c)
    (_hmono : (((p0 :: L) ++ [(e, d)]).map Prod.fst).Pairwise (· < ·))
    (hbelow : ∀ p ∈ p0 :: L, p.2 < t) (hnb : ¬ d < t) :
    (c ≤ ((L.length + 1 : ℕ) : ℤ) →
      detect_plateaus ((p0 :: L) ++ [(e, d)]) t c =
        some [⟨some p0.1, e - 1, npMean (p0.2 :: L.map Prod.snd), L.length + 1⟩]) ∧
    (((L.length + 1 : ℕ) : ℤ) < c →
      detect_plateaus ((p0 :: L) ++ [(e, d)]) t c = some []) := by
  have hfold : ((p0 :: L) ++ [(e, d)]).foldl (dpStep t c) dpInit =
      dpStep t c ⟨[], some p0.1, L.length + 1, p0.2 :: L.map Prod.snd⟩ (e, d) := by
    rw [List.foldl_append, show dpInit = (⟨[], none, 0, []⟩ : DPState) from rfl,
      dp_run_closed t c p0 L [] hbelow, List.foldl_cons, List.foldl_nil]
  constructor
  · intro hlen
    have hstep : dpStep t c ⟨[], some p0.1, L.length + 1, p0.2 :: L.map Prod.snd⟩ (e, d) =
        ⟨[⟨some p0.1, e - 1, npMean (p0.2 :: L.map Prod.snd), L.length + 1⟩],
          none, 0, []⟩ := by
      rw [dpStep_not_below t c _ _ hnb]
      simp only
      rw [if_pos hlen]
      simp
    simp only [detect_plateaus, hfold, hstep]
    rw [if_neg (by push_cast; omega)]
  · intro hlen
    have hstep : dpStep t c ⟨[], some p0.1, L.length + 1, p0.2 :: L.map Prod.snd⟩ (e, d) =
        ⟨[], none, 0, []⟩ := by
      rw [dpStep_not_below t c _ _ hnb]
      simp only
      rw [if_neg (by omega)]
    simp only [detect_plateaus, hfold, hstep]
    rw [if_neg (by push_cast; omega)]

def c4tail : List (ℤ × ℚ) :=
  [(2, 0), (3, 0), (4, 0), (5, 0), (6, 0), (7, 0), (8, 0), (9, 0), (10, 0),
   (11, 0), (12, 0)]

/-- C4 witness: twelve below-threshold deltas at epochs 1..12 followed by an
above-threshold delta at epoch 13, with `consecutive_epochs = 10`. -/
theorem claim_C4_run_close_witness :
    ((1 : ℤ) ≤ 10) ∧
    (((((1 : ℤ), (0 : ℚ)) :: c4tail) ++ [((13 : ℤ), (5 : ℚ))]).map Prod.fst).Pairwise (· < ·) ∧
    (∀ p ∈ ((1 : ℤ), (0 : ℚ)) :: c4tail, p.2 < 1) ∧
    (¬ (5 : ℚ) < 1) ∧
    (((10 : ℤ) ≤ ((c4tail.length + 1 : ℕ) : ℤ) →
      detect_plateaus ((((1 : ℤ), (0 : ℚ)) :: c4tail) ++ [((13 : ℤ), (5 : ℚ))]) 1 10 =
        some [⟨some 1, 13 - 1, npMean ((0 : ℚ) :: c4tail.map Prod.snd),
          c4tail.length + 1⟩]) ∧
     (((c4tail.length + 1 : ℕ) : ℤ) < 10 →
      detect_plateaus ((((1 : ℤ), (0 : ℚ)) :: c4tail) ++ [((13 : ℤ), (5 : ℚ))]) 1 10 =
        some [])) :=
  ⟨by decide, by decide, by decide, by decide,
    claim_C4_run_close 1 10 (1, 0) c4tail 13 5 (by decide) (by decide)
      (by decide) (by decide)⟩

/-! ## Claim C5: trailing run at the end of the sequence -/

/-- C5: when the sequence ends inside a run (the prefix `P` before the run is
empty or ends with an at-or-above-threshold delta, and the final deltas
`l0 :: L` are all below threshold), the detector emits a trailing descriptor
ending at the last processed epoch if and only if that run's length is at
least `consecutive_epochs` (e.g. deltas for epochs 91..100 below threshold
with `consecutive_epochs = 10` and nothing after yield one descriptor
`[91, 100]`). -/
theorem claim_C5_trailing (t : ℚ) (c : ℤ) (P : List (ℤ × ℚ)) (l0 : ℤ × ℚ)
    (L : List (ℤ × ℚ)) (q : ℤ × ℚ)
    (hP : P = [] ∨ ∃ y, P.getLast? = some y ∧ ¬ y.2 < t)
    (hbelow : ∀ p ∈ l0 :: L, p.2 < t)
    (hq : (l0 :: L).getLast? = some q) :
    detect_plateaus (P ++ l0 :: L) t c =
      some ((P.foldl (dpStep t c) dpInit).plateaus ++
        (if c ≤ ((L.length + 1 : ℕ) : ℤ) then
          [⟨some l0.1, q.1, npMean (l0.2 :: L.map Prod.snd), L.length + 1⟩]
        else [])) := by
  have hfold : (P ++ l0 :: L).foldl (dpStep t c) dpInit =
      ⟨(P.foldl (dpStep t c) dpInit).plateaus, some l0.1, L.length + 1,
        l0.2 :: L.map Prod.snd⟩ := by
    rw [List.foldl_append, dp_closed t c P hP, dp_run_closed t c l0 L _ hbelow]
  simp only [detect_plateaus, hfold]
  by_cases hcl : c ≤ ((L.length + 1 : ℕ) : ℤ)
  · rw [if_pos hcl, if_pos hcl, List.getLast?_append_of_ne_nil P (by simp), hq]
  · rw [if_neg hcl, if_neg hcl, List.append_nil]

def c5tail : List (ℤ × ℚ) :=
  [(92, 0), (93, 0), (94, 0), (95, 0), (96, 0), (97, 0), (98, 0), (99, 0),
   (100, 0)]

/-- C5 witness: deltas for epochs 91..100 all below threshold,
`consecutive_epochs = 10`, nothing after epoch 100. -/
theorem claim_C5_trailing_witness :
    (([] : List (ℤ × ℚ)) = [] ∨
      ∃ y, ([] : List (ℤ × ℚ)).getLast? = some y ∧ ¬ y.2 < (1 : ℚ)) ∧
    (∀ p ∈ ((91 : ℤ), (0 : ℚ)) :: c5tail, p.2 < 1) ∧
    ((((91 : ℤ), (0 : ℚ)) :: c5tail).getLast? = some (100, 0)) ∧
    detect_plateaus (([] : List (ℤ × ℚ)) ++ ((91 : ℤ), (0 : ℚ)) :: c5tail) 1 10 =
      some ((([] : List (ℤ × ℚ)).foldl (dpStep 1 10) dpInit).plateaus ++
        (if (10 : ℤ) ≤ ((c5tail.length + 1 : ℕ) : ℤ) then
          [⟨some 91, 100, npMean ((0 : ℚ) :: c5tail.map Prod.snd),
            c5tail.length + 1⟩]
        else [])) :=
  ⟨Or.inl rfl, by decide, by decide,
    claim_C5_trailing 1 10 [] (91, 0) c5tail (100, 0) (Or.inl rfl)
      (by decide) (by decide)⟩

/-! ## Claim C6: descriptor invariants -/

lemma pairwise_lt_le_getLast :
    ∀ {l : List ℤ}, l.Pairwise (· < ·) → ∀ {x : ℤ}, l.getLast? = some x →
      ∀ {a : ℤ}, a ∈ l → a ≤ x
  | [], _, _, hx, _, ha => by cases ha
  | b :: r, hp, x, hx, a, ha => by
    rw [List.pairwise_cons] at hp
    cases r with
    | nil =>
      simp only [List.getLast?_singleton, Option.some.injEq] at hx
      simp only [List.mem_singleton] at ha
      omega
    | cons cc rs =>
      rw [List.getLast?_cons_cons] at hx
      rcases List.mem_cons.mp ha with rfl | ha'
      · exact le_of_lt (hp.1 x (List.mem_of_getLast?_eq_some hx))
      · exact pairwise_lt_le_getLast hp.2 hx ha'

/-- The loop invariant of `detect_plateaus`: under strictly increasing epochs
and a positive minimum run length, every emitted descriptor has
`epochs_in_plateau ≥ consecutive_epochs` and a populated `start_epoch` not
exceeding `end_epoch`; moreover an open run started at one of the processed
epochs and a closed run has a zero counter. -/
lemma dp_fold_inv (t : ℚ) (c : ℤ) (hc : 1 ≤ c) :
    ∀ (l : List (ℤ × ℚ)) (st : DPState),
      (l.map Prod.fst).Pairwise (· < ·) →
      (∀ p ∈ st.plateaus, c ≤ (p.epochs_in_plateau : ℤ) ∧
        ∃ s, p.start_epoch = some s ∧ s ≤ p.end_epoch) →
      (∀ s, st.start = some s → ∀ e ∈ l.map Prod.fst, s < e) →
      (st.start = none → st.count = 0) →
      (∀ p ∈ (l.foldl (dpStep t c) st).plateaus,
        c ≤ (p.epochs_in_plateau : ℤ) ∧
        ∃ s, p.start_epoch = some s ∧ s ≤ p.end_epoch) ∧
      (∀ s, (l.foldl (dpStep t c) st).start = some s →
        s ∈ l.map Prod.fst ∨ st.start = some s) ∧
      ((l.foldl (dpStep t c) st).start = none →
        (l.foldl (dpStep t c) st).count = 0)
  | [], st, _, hpl, _, hnone => by
    exact ⟨hpl, fun s hs => Or.inr hs, hnone⟩
  | p :: l, st, hmono, hpl, hopen, hnone => by
    simp only [List.map_cons, List.pairwise_cons] at hmono
    obtain ⟨hp_lt, hmono2⟩ := hmono
    simp only [List.foldl_cons]
    by_cases hb : p.2 < t
    · rw [dpStep_below t c st p hb]
      cases hst : st.start with
      | none =>
        simp only
        obtain ⟨A, B, C⟩ := dp_fold_inv t c hc l
          ⟨st.plateaus, some p.1, st.count + 1, [p.2]⟩ hmono2 hpl
          (by intro s hs e he
              simp only [Option.some.injEq] at hs
              exact hs ▸ hp_lt e he)
          (by intro h; exact absurd h (by simp))
        refine ⟨A, fun s hs => ?_, C⟩
        rcases B s hs with h | h
        · exact Or.inl (by simp [h])
        · simp only [Option.some.injEq] at h
          exact Or.inl (by simp [h])
      | some s0 =>
        simp only
        obtain ⟨A, B, C⟩ := dp_fold_inv t c hc l
          ⟨st.plateaus, some s0, st.count + 1, st.buf ++ [p.2]⟩ hmono2 hpl
          (by intro s hs e he
              simp only [Option.some.injEq] at hs
              subst hs
              exact hopen s0 hst e (by simp [he]))
          (by intro h; exact absurd h (by simp))
        refine ⟨A, fun s hs => ?_, C⟩
        rcases B s hs with h | h
        · exact Or.inl (by simp [h])
        · simp only [Option.some.injEq] at h
          exact Or.inr (by rw [← h])
    · rw [dpStep_not_below t c st p hb]
      by_cases hcnt : c ≤ (st.count : ℤ)
      · rw [if_pos hcnt]
        have hs0 : ∃ s0, st.start = some s0 := by
          cases hst : st.start with
          | none => exact absurd (hnone hst) (by omega)
          | some s0 => exact ⟨s0, rfl⟩
        obtain ⟨s0, hst0⟩ := hs0
        have hgood : c ≤ (st.count : ℤ) ∧
            ∃ s, (⟨st.start, p.1 - 1, npMean st.buf, st.count⟩ :
              PlateauInfo).start_epoch = some s ∧ s ≤ p.1 - 1 := by
          refine ⟨hcnt, s0, hst0, ?_⟩
          have := hopen s0 hst0 p.1 (by simp)
          omega
        obtain ⟨A, B, C⟩ := dp_fold_inv t c hc l
          ⟨st.plateaus ++ [⟨st.start, p.1 - 1, npMean st.buf, st.count⟩],
            none, 0, []⟩ hmono2
          (by intro q hq
              rcases List.mem_append.mp hq with h | h
              · exact hpl q h
              · rcases List.mem_singleton.mp h with rfl
                exact hgood)
          (by intro s hs; exact absurd hs (by simp))
          (fun _ => rfl)
        refine ⟨A, fun s hs => ?_, C⟩
        rcases B s hs with h | h
        · exact Or.inl (by simp [h])
        · exact absurd h (by simp)
      · rw [if_neg hcnt]
        obtain ⟨A, B, C⟩ := dp_fold_inv t c hc l
          ⟨st.plateaus, none, 0, []⟩ hmono2 hpl
          (by intro s hs; exact absurd hs (by simp))
          (fun _ => rfl)
        refine ⟨A, fun s hs => ?_, C⟩
        rcases B s hs with h | h
        · exact Or.inl (by simp [h])
        · exact absurd h (by simp)

lemma detect_plateaus_good (t : ℚ) (c : ℤ) (hc : 1 ≤ c) (l : List (ℤ × ℚ))
    (hmono : (l.map Prod.fst).Pairwise (· < ·)) (res : List PlateauInfo)
    (hres : detect_plateaus l t c = some res) :
    ∀ p ∈ res, c ≤ (p.epochs_in_plateau : ℤ) ∧
      ∃ s, p.start_epoch = some s ∧ s ≤ p.end_epoch := by
  obtain ⟨A, B, C⟩ := dp_fold_inv t c hc l dpInit hmono
    (by intro p hp; exact absurd hp (by simp [dpInit]))
    (by intro s hs; exact absurd hs (by simp [dpInit]))
    (fun _ => rfl)
  simp only [detect_plateaus] at hres
  by_cases hcnt : c ≤ ((l.foldl (dpStep t c) dpInit).count : ℤ)
  · rw [if_pos hcnt] at hres
    cases hlast : l.getLast? with
    | none => rw [hlast] at hres; exact absurd hres (by simp)
    | some q =>
      rw [hlast] at hres
      have hres2 := Option.some.inj hres
      subst hres2
      intro p hp
      rcases List.mem_append.mp hp with h | h
      · exact A p h
      · rcases List.mem_singleton.mp h with rfl
        have hs0 : ∃ s0, (l.foldl (dpStep t c) dpInit).start = some s0 := by
          cases hst : (l.foldl (dpStep t c) dpInit).start with
          | none => exact absurd (C hst) (by omega)
          | some s0 => exact ⟨s0, rfl⟩
        obtain ⟨s0, hst0⟩ := hs0
        have hmem : s0 ∈ l.map Prod.fst := by
          rcases B s0 hst0 with h | h
          · exact h
          · exact absurd h (by simp [dpInit])
        have hlast2 : (l.map Prod.fst).getLast? = some q.1 := by
          rw [List.getLast?_map, hlast]; rfl
        refine ⟨hcnt, s0, hst0, pairwise_lt_le_getLast hmono hlast2 hmem⟩
  · rw [if_neg hcnt] at hres
    have hres2 := Option.some.inj hres
    subst hres2
    exact A

/-- C6 counterexample: with epochs out of increasing order the detector can
emit a descriptor with `end_epoch < start_epoch` (first conjunct, descriptor
`[5, -1]`), and with `consecutive_epochs = 0` it can emit descriptors whose
`start_epoch` is Python `None` (second conjunct), so the claim fails without
further hypotheses. -/
theorem claim_C6_counterexample :
    (detect_plateaus [(5, 0), (0, 1)] 1 1 = some [⟨some 5, -1, some 0, 1⟩] ∧
      ¬ ((5 : ℤ) ≤ -1)) ∧
    (detect_plateaus [(1, 5)] 1 0 =
      some [⟨none, 0, none, 0⟩, ⟨none, 1, none, 0⟩]) := by
  refine ⟨⟨?_, by omega⟩, ?_⟩
  · have h1 : dpStep 1 1 dpInit ((5 : ℤ), (0 : ℚ)) = ⟨[], some 5, 1, [0]⟩ := by
      rw [dpStep_below 1 1 _ _ (by norm_num)]; rfl
    have h2 : dpStep 1 1 ⟨[], some 5, 1, [0]⟩ ((0 : ℤ), (1 : ℚ)) =
        ⟨[⟨some 5, -1, some 0, 1⟩], none, 0, []⟩ := by
      rw [dpStep_not_below 1 1 _ _ (by norm_num)]
      simp only
      rw [if_pos (by norm_num)]
      have : npMean [(0 : ℚ)] = some 0 := by simp [npMean]
      simp [this]
    simp only [detect_plateaus, List.foldl_cons, List.foldl_nil, h1, h2]
    rw [if_neg (by norm_num)]
  · have h1 : dpStep 1 0 dpInit ((1 : ℤ), (5 : ℚ)) =
        ⟨[⟨none, 0, none, 0⟩], none, 0, []⟩ := by
      rw [dpStep_not_below 1 0 _ _ (by norm_num)]
      simp only
      rw [if_pos (by norm_num)]
      simp [dpInit, npMean]
    simp only [detect_plateaus, List.foldl_cons, List.foldl_nil, h1]
    rw [if_pos (by norm_num)]
    simp [npMean]

/-- C6 (amended): for every delta sequence with strictly increasing epochs
and every positive `consecutive_epochs`, every descriptor produced by
`detect_plateaus` satisfies `run_length ≥ consecutive_epochs` and has a
populated `start_epoch` with `end_epoch ≥ start_epoch`. -/
theorem claim_C6_invariants (l : List (ℤ × ℚ)) (t : ℚ) (c : ℤ)
    (res : List PlateauInfo) (hc : 1 ≤ c)
    (hmono : (l.map Prod.fst).Pairwise (· < ·))
    (hres : detect_plateaus l t c = some res) :
    ∀ p ∈ res, c ≤ (p.epochs_in_plateau : ℤ) ∧
      ∃ s, p.start_epoch = some s ∧ s ≤ p.end_epoch :=
  detect_plateaus_good t c hc l hmono res hres

/-- C6 witness: two below-threshold deltas at epochs 1, 2 with
`consecutive_epochs = 1`. -/
theorem claim_C6_invariants_witness :
    ((1 : ℤ) ≤ 1) ∧
    (([(1, 0), (2, 0)] : List (ℤ × ℚ)).map Prod.fst).Pairwise (· < ·) ∧
    detect_plateaus [(1, 0), (2, 0)] 1 1 =
      some [⟨some 1, 2, npMean [0, 0], 2⟩] ∧
    (∀ p ∈ [(⟨some 1, 2, npMean [0, 0], 2⟩ : PlateauInfo)],
      (1 : ℤ) ≤ (p.epochs_in_plateau : ℤ) ∧
      ∃ s, p.start_epoch = some s ∧ s ≤ p.end_epoch) := by
  have hdet : detect_plateaus [(1, 0), (2, 0)] 1 1 =
      some [⟨some 1, 2, npMean [0, 0], 2⟩] := by
    have hf := dp_run_closed 1 1 ((1 : ℤ), (0 : ℚ)) [(2, 0)] []
      (by intro p hp; fin_cases hp <;> norm_num)
    simp only [List.map_cons, List.map_nil] at hf
    simp only [detect_plateaus, show dpInit = (⟨[], none, 0, []⟩ : DPState) from rfl, hf]
    rw [if_pos (by norm_num)]
    rfl
  exact ⟨by decide, by decide, hdet,
    claim_C6_invariants [(1, 0), (2, 0)] 1 1 _ (by decide) (by decide) hdet⟩

/-! ## Claim C8: relative improvements -/

lemma criGo_eq (m : MetricName) :
    ∀ (rest : List EpochMetrics) (prev : EpochMetrics),
      criGo m prev rest = ((prev :: rest).zip rest).filterMap (fun q =>
        match getMetric m q.1, getMetric m q.2 with
        | some p, some c => if p = 0 then none
            else some (q.2.epoch, (p - c) / p * 100)
        | _, _ => none)
  | [], prev => by simp [criGo]
  | r :: rs, prev => by
    have ih := criGo_eq m rs r
    simp only [criGo, List.zip_cons_cons, List.filterMap_cons]
    cases hp : getMetric m prev <;> cases hc : getMetric m r
    · simpa using ih
    · simpa using ih
    · simpa using ih
    · rename_i p c
      by_cases h0 : p = 0
      · simp [h0, ih]
      · simp [h0, ih]

/-- C8: `compute_relative_improvements` emits, for each consecutive pair of
records in order, the point `(epoch_i, (prev - curr) / prev * 100)` exactly
when both metric values are present and the previous one is non-zero; all
other pairs are skipped (mapped to nothing) without stopping the scan, so a
zero previous value never reaches the division. -/
theorem claim_C8_relative_improvements (l : List EpochMetrics) (m : MetricName) :
    compute_relative_improvements l m = (l.zip l.tail).filterMap (fun q =>
      match getMetric m q.1, getMetric m q.2 with
      | some p, some c => if p = 0 then none
          else some (q.2.epoch, (p - c) / p * 100)
      | _, _ => none) := by
  cases l with
  | nil => simp [compute_relative_improvements]
  | cons e rest => exact criGo_eq m rest e

/-! ## Claim C1: total improvement in `analyze_training` -/

lemma dp_fold_some (t : ℚ) (c : ℤ) (hc : 1 ≤ c) :
    ∀ (l : List (ℤ × ℚ)) (st : DPState),
      (∀ p ∈ st.plateaus, p.start_epoch ≠ none) →
      (st.start = none → st.count = 0) →
      (∀ p ∈ (l.foldl (dpStep t c) st).plateaus, p.start_epoch ≠ none) ∧
      ((l.foldl (dpStep t c) st).start = none →
        (l.foldl (dpStep t c) st).count = 0)
  | [], st, hpl, hnone => ⟨hpl, hnone⟩
  | p :: l, st, hpl, hnone => by
    simp only [List.foldl_cons]
    by_cases hb : p.2 < t
    · rw [dpStep_below t c st p hb]
      cases hst : st.start with
      | none =>
        exact dp_fold_some t c hc l _ hpl (by intro h; exact absurd h (by simp))
      | some s0 =>
        exact dp_fold_some t c hc l _ hpl (by intro h; exact absurd h (by simp))
    · rw [dpStep_not_below t c st p hb]
      by_cases hcnt : c ≤ (st.count : ℤ)
      · rw [if_pos hcnt]
        refine dp_fold_some t c hc l _ ?_ (fun _ => rfl)
        intro q hq
        rcases List.mem_append.mp hq with h | h
        · exact hpl q h
        · rcases List.mem_singleton.mp h with rfl
          simp only
          cases hst : st.start with
          | none => exact absurd (hnone hst) (by omega)
          | some s0 => simp
      · rw [if_neg hcnt]
        exact dp_fold_some t c hc l _ hpl (fun _ => rfl)

lemma detect_plateaus_total (t : ℚ) (c : ℤ) (hc : 1 ≤ c) (l : List (ℤ × ℚ)) :
    ∃ res, detect_plateaus l t c = some res ∧
      ∀ p ∈ res, p.start_epoch ≠ none := by
  obtain ⟨A, B⟩ := dp_fold_some t c hc l dpInit
    (by intro p hp; exact absurd hp (by simp [dpInit])) (fun _ => rfl)
  simp only [detect_plateaus]
  by_cases hcnt : c ≤ ((l.foldl (dpStep t c) dpInit).count : ℤ)
  · rw [if_pos hcnt]
    cases hl : l with
    | nil =>
      exfalso
      subst hl
      simp only [List.foldl_nil] at hcnt
      have : dpInit.count = 0 := rfl
      omega
    | cons x xs =>
      subst hl
      obtain ⟨q, hq⟩ : ∃ q, (x :: xs).getLast? = some q := by
        cases h : (x :: xs).getLast? with
        | none => exact absurd h (by simp)
        | some q => exact ⟨q, rfl⟩
      rw [hq]
      refine ⟨_, rfl, ?_⟩
      intro p hp
      rcases List.mem_append.mp hp with h | h
      · exact A p h
      · rcases List.mem_singleton.mp h with rfl
        simp only
        cases hst : ((x :: xs).foldl (dpStep t c) dpInit).start with
        | none => exact absurd (B hst) (by omega)
        | some s0 => simp
  · rw [if_neg hcnt]
    exact ⟨_, rfl, A⟩

lemma suggestGo_total (m : ℤ) :
    ∀ pl : List PlateauInfo, (∀ p ∈ pl, p.start_epoch ≠ none) →
      ∃ r, suggestGo m pl = some r
  | [], _ => ⟨none, rfl⟩
  | p :: rest, h => by
    obtain ⟨s, hs⟩ := Option.ne_none_iff_exists'.mp (h p (by simp))
    by_cases hm : m ≤ s
    · exact ⟨some s, by simp [suggestGo, hs, hm]⟩
    · obtain ⟨r, hr⟩ := suggestGo_total m rest (fun q hq => h q (by simp [hq]))
      exact ⟨r, by simp [suggestGo, hs, hm, hr]⟩

lemma suggest_stop_total (eps : List EpochMetrics) (imps : List (ℤ × ℚ))
    (pl : List PlateauInfo) (m : ℤ) (h : ∀ p ∈ pl, p.start_epoch ≠ none) :
    ∃ r, suggest_stop_epoch eps imps pl m = some r := by
  cases pl with
  | nil => exact ⟨none, rfl⟩
  | cons p rest => exact suggestGo_total m (p :: rest) h

/-- For any positive `consecutive_epochs`, the whole analysis pipeline
returns a result, and its `total_improvement` field is the Python-truthiness
computation of the source: the formula when both endpoint values are present
and non-zero, `0.0` otherwise. -/
lemma analyze_training_total_eq (eps : List EpochMetrics) (metric : MetricName)
    (t : ℚ) (c : ℤ) (ur : Bool) (hc : 1 ≤ c) :
    Option.map AnalysisResult.total_improvement (analyze_training eps metric t c ur) =
      some (match eps with
            | [] => 0
            | e0 :: _ =>
              match eps.getLast? with
              | none => 0
              | some el =>
                match getMetric metric e0, getMetric metric el with
                | some f, some l => if f ≠ 0 ∧ l ≠ 0 then (f - l) / f * 100 else 0
                | _, _ => 0) := by
  obtain ⟨plat, hdet, hstarts⟩ := detect_plateaus_total t c hc
    (if ur then compute_relative_improvements eps metric
     else compute_improvements eps metric)
  obtain ⟨sug, hsug⟩ := suggest_stop_total eps
    (if ur then compute_relative_improvements eps metric
     else compute_improvements eps metric) plat 50 hstarts
  simp only [analyze_training, hdet, hsug]
  rfl

/-- C1 (amended): for every record sequence and metric, `analyze_training`
(with its default threshold 0.1, `consecutive_epochs = 10`, relative mode)
returns a result whose `total_improvement` is
`(first.metric - last.metric) / first.metric * 100` when both endpoint values
are present AND non-zero (Python truthiness of `if first_val and last_val`),
and `0.0` in every other case — endpoint absent, endpoint equal to zero, or
empty record list. -/
theorem claim_C1_total_improvement :
    (∀ (metric : MetricName) (e0 el : EpochMetrics) (rest : List EpochMetrics),
      (e0 :: rest).getLast? = some el →
      Option.map AnalysisResult.total_improvement
          (analyze_training (e0 :: rest) metric 0.1 10 true) =
        some (match getMetric metric e0, getMetric metric el with
              | some f, some l => if f ≠ 0 ∧ l ≠ 0 then (f - l) / f * 100 else 0
              | _, _ => 0)) ∧
    (∀ metric : MetricName,
      Option.map AnalysisResult.total_improvement
          (analyze_training [] metric 0.1 10 true) = some 0) := by
  constructor
  · intro metric e0 el rest hlast
    rw [analyze_training_total_eq (e0 :: rest) metric 0.1 10 true (by norm_num),
      hlast]
  · intro metric
    rw [analyze_training_total_eq [] metric 0.1 10 true (by norm_num)]

def c1ra : EpochMetrics := { epoch := 1, valid_generator_loss := some 2 }
def c1rb : EpochMetrics := { epoch := 2, valid_generator_loss := some 1 }
def c1rz : EpochMetrics := { epoch := 2, valid_generator_loss := some 0 }

/-- C1 counterexample: both endpoints carry a numeric value (2.0 and 0.0), so
the claim demands `(2 - 0) / 2 * 100 = 100`, but the code's truthiness test
treats the 0.0 endpoint as falsy and yields `0.0`. -/
theorem claim_C1_counterexample :
    Option.map AnalysisResult.total_improvement
        (analyze_training [c1ra, c1rz] MetricName.valid_generator_loss 0.1 10 true) =
      some 0 ∧
    getMetric MetricName.valid_generator_loss c1ra = some 2 ∧
    getMetric MetricName.valid_generator_loss c1rz = some 0 ∧
    ((2 : ℚ) - 0) / 2 * 100 ≠ 0 := by
  refine ⟨?_, rfl, rfl, by norm_num⟩
  rw [analyze_training_total_eq [c1ra, c1rz] MetricName.valid_generator_loss
    0.1 10 true (by norm_num)]
  norm_num [c1ra, c1rz, getMetric]

/-- C1 witness. -/
theorem claim_C1_total_improvement_witness :
    (([c1ra, c1rb] : List EpochMetrics).getLast? = some c1rb) ∧
    Option.map AnalysisResult.total_improvement
        (analyze_training [c1ra, c1rb] MetricName.valid_generator_loss 0.1 10 true) =
      some (match getMetric MetricName.valid_generator_loss c1ra,
              getMetric MetricName.valid_generator_loss c1rb with
            | some f, some l => if f ≠ 0 ∧ l ≠ 0 then (f - l) / f * 100 else 0
            | _, _ => 0) :=
  ⟨rfl, claim_C1_total_improvement.1 MetricName.valid_generator_loss c1ra c1rb
    [c1rb] rfl⟩

/-! ## Claim C9: lines without a `[train]` marker -/

/-- C9: on an epoch-summary line (the epoch header matches with capture
`cap`) that contains no `[train]` marker, both the training and the
validation segment are empty, so the produced record is the all-absent record
(all fourteen per-epoch metric fields and the elapsed-time field are `none`),
even when the line contains a `[valid]` section with well-formed `key=value`
fragments. -/
theorem claim_C9_no_train_marker (line : List Char) (cap : List Char)
    (hep : epochSearch line = some cap)
    (htr : findSub trainTag line = none) :
    parseLine line = some (some
      ⟨(natOfDigits cap : ℤ), none, none, none, none, none, none, none,
        none, none, none, none, none, none, none, none⟩) := by
  have hsec : sections line = ([], []) := by simp [sections, htr]
  simp only [parseLine, hep, hsec]
  rfl

/-- C9 witness: a line with an epoch header and a well-formed `[valid]`
section but no `[train]` marker. -/
theorem claim_C9_no_train_marker_witness :
    epochSearch ("7epoch results: [valid] generator_loss=1.5".data) = some ['7'] ∧
    findSub trainTag ("7epoch results: [valid] generator_loss=1.5".data) = none ∧
    parseLine ("7epoch results: [valid] generator_loss=1.5".data) = some (some
      ⟨(natOfDigits ['7'] : ℤ), none, none, none, none, none, none, none,
        none, none, none, none, none, none, none, none⟩) :=
  ⟨by decide, by decide,
    claim_C9_no_train_marker _ ['7'] (by decide) (by decide)⟩

/-! ## Claim C10: `train_time_seconds` comes only from the training
segment -/

lemma timeSearch_none : ∀ (s : List Char), findSub timeEqL s = none →
    timeSearch s = none
  | [], _ => rfl
  | c :: cs, h => by
    rw [findSub] at h
    by_cases hs : startsWithL timeEqL (c :: cs)
    · rw [if_pos hs] at h
      simp at h
    · rw [if_neg hs] at h
      have h2 : findSub timeEqL cs = none := by
        cases hf : findSub timeEqL cs with
        | none => rfl
        | some j => rw [hf] at h; simp at h
      simp only [timeSearch]
      rw [if_neg hs]
      exact timeSearch_none cs h2

/-- C10: `train_time_seconds` is populated only from a `time=` fragment
inside the training segment.  First part: for any epoch-summary line of shape
`pre ++ "[train]" ++ mid ++ "[valid]" ++ post` (with the markers' first
occurrences at the indicated places) whose training segment contains no
`time=`, the field is absent — no matter what `time=` fragments `pre` or
`post` contain.  Second part (control): a `time=` fragment inside the
training segment does populate the field. -/
theorem claim_C10_time_train_segment :
    (∀ (pre mid post cap : List Char),
      epochSearch (pre ++ (trainTag ++ (mid ++ (validTag ++ post)))) = some cap →
      findSub trainTag (pre ++ (trainTag ++ (mid ++ (validTag ++ post)))) =
        some pre.length →
      findSub validTag (trainTag ++ (mid ++ (validTag ++ post))) =
        some (trainTag ++ mid).length →
      findSub timeEqL (trainTag ++ mid) = none →
      Option.map (Option.map EpochMetrics.train_time_seconds)
          (parseLine (pre ++ (trainTag ++ (mid ++ (validTag ++ post))))) =
        some (some none)) ∧
    Option.map (Option.map EpochMetrics.train_time_seconds)
        (parseLine ("3epoch results: [train] time=7 seconds, generator_loss=1.0 [valid] generator_loss=2.0".data)) =
      some (some (some 7)) := by
  constructor
  · intro pre mid post cap hep htr hval htime
    have hsec : sections (pre ++ (trainTag ++ (mid ++ (validTag ++ post)))) =
        (trainTag ++ mid, validTag ++ post) := by
      simp only [sections, htr, List.drop_left, hval]
      rw [show trainTag ++ (mid ++ (validTag ++ post)) =
        (trainTag ++ mid) ++ (validTag ++ post) from by simp [List.append_assoc]]
      rw [List.take_left, List.drop_left]
    have hts : timeSearch (trainTag ++ mid) = none := timeSearch_none _ htime
    simp only [parseLine, hep, hsec, hts]
    rfl
  · have h1 : epochSearch
        ("3epoch results: [train] time=7 seconds, generator_loss=1.0 [valid] generator_loss=2.0".data) =
        some ['3'] := by decide
    have hsec : sections
        ("3epoch results: [train] time=7 seconds, generator_loss=1.0 [valid] generator_loss=2.0".data) =
        ("[train] time=7 seconds, generator_loss=1.0 ".data,
         "[valid] generator_loss=2.0".data) := by decide
    have ht : timeSearch ("[train] time=7 seconds, generator_loss=1.0 ".data) =
        some ("7 seconds".data) := by decide
    have hp : parse_time_chars ("7 seconds".data) = some 7 := by
      have hw : searchNumUnit isDigitC isSpaceC weekU ("7 seconds".data) = none := by decide
      have hd : searchNumUnit isDigitC isSpaceC dayU ("7 seconds".data) = none := by decide
      have hh : searchNumUnit isDigitC isSpaceC hourU ("7 seconds".data) = none := by decide
      have hm : searchNumUnit isDigitC isSpaceC minuteU ("7 seconds".data) = none := by decide
      have hs : searchNumUnit isDigDotC isSpaceC secondU ("7 seconds".data) =
          some ['7'] := by decide
      have hpf : pyFloatDD ['7'] = some ((7 : ℚ) + (0 : ℚ) / 10 ^ 0) :=
        pyFloatDD_eval _ 7 0 0 (by decide) (by decide) (by decide) (by decide)
      simp only [parse_time_chars, secondsContrib, weeksContrib, daysContrib,
        hoursContrib, minutesContrib, hw, hd, hh, hm, hs, hpf]
      norm_num
    simp only [parseLine, h1, hsec, ht, hp]
    rfl

/-- C10 witness: `time=` fragments before `[train]` and inside `[valid]`
leave `train_time_seconds` absent. -/
theorem claim_C10_time_train_segment_witness :
    epochSearch ("2epoch results: time=9 seconds, ".data ++
      (trainTag ++ (" generator_loss=1.0, ".data ++
        (validTag ++ " time=8 seconds, generator_loss=2.0".data)))) = some ['2'] ∧
    findSub trainTag ("2epoch results: time=9 seconds, ".data ++
      (trainTag ++ (" generator_loss=1.0, ".data ++
        (validTag ++ " time=8 seconds, generator_loss=2.0".data)))) =
      some ("2epoch results: time=9 seconds, ".data).length ∧
    findSub validTag (trainTag ++ (" generator_loss=1.0, ".data ++
      (validTag ++ " time=8 seconds, generator_loss=2.0".data))) =
      some (trainTag ++ " generator_loss=1.0, ".data).length ∧
    findSub timeEqL (trainTag ++ " generator_loss=1.0, ".data) = none ∧
    Option.map (Option.map EpochMetrics.train_time_seconds)
        (parseLine ("2epoch results: time=9 seconds, ".data ++
          (trainTag ++ (" generator_loss=1.0, ".data ++
            (validTag ++ " time=8 seconds, generator_loss=2.0".data))))) =
      some (some none) :=
  ⟨by decide, by decide, by decide, by decide,
    claim_C10_time_train_segment.1 _ _ _ ['2'] (by decide) (by decide)
      (by decide) (by decide)⟩
